import Mathlib

/-!
Verification of the Parque Berlín reservation controller (`controlador.c`).

The scheduling engine of the controller is embedded shallowly: the global
mutable state of the C program becomes an explicit `Estado` record threaded
through the request handler, C `int` values become `Int`, and the
fixed-size occupancy array `ocupacionPorHora[MAX_HORAS]` (indexed by
`indiceHora(h) = h - HORAS_MIN`) becomes a total function keyed directly by
the hour; the code only ever reads or writes it at hours satisfying
`validarHora`, which is proved below. The mutex acquisitions in the C code
serialize handler executions; here each handler is a pure state
transformer, and a run is a fold of handlers over a request list.
-/

namespace ParqueBerlin

/-- Mirrors `#define HORAS_MIN 7`. -/
def HORAS_MIN : Int := 7

/-- Mirrors `#define HORAS_MAX 19`. -/
def HORAS_MAX : Int := 19

/-- Mirrors `#define DURACION_RESERVA 2` — every reservation spans 2 hours. -/
def DURACION_RESERVA : Int := 2

/-- Mirrors `int validarHora(int hora)`: `hora >= HORAS_MIN && hora <= HORAS_MAX`. -/
def validarHora (hora : Int) : Bool :=
  decide (HORAS_MIN ≤ hora ∧ hora ≤ HORAS_MAX)

/-- Mirrors `int indiceHora(int hora)`: `hora - HORAS_MIN`, the array index of hour
`hora` in the C occupancy array. -/
def indiceHora (hora : Int) : Int :=
  hora - HORAS_MIN

/-- Configuration parameters (`horaFinal`, `aforoMaximo`) consumed by the
scheduling engine; `horaInicial`, `segundosPorHora` and the pipe name only
affect startup and pacing, not scheduling decisions. -/
structure Config where
  horaFinal : Int
  aforoMaximo : Int

/-- The struct `MensajeAgente` restricted to the fields of a `MSG_SOLICITUD_RESERVA`
message that the scheduling engine reads. -/
structure MensajeAgente where
  nombreAgente : String
  pipeRespuesta : String
  nombreFamilia : String
  horaSolicitada : Int
  numPersonas : Int

/-- One record of the `reservas[]` store. -/
structure Reserva where
  nombreFamilia : String
  nombreAgente : String
  horaInicio : Int
  horaFin : Int
  numPersonas : Int
  activa : Bool
deriving DecidableEq

/-- The controller response, restricted to the fields the code actually sets
on each reservation outcome (`RESP_RESERVA_OK`, `RESP_RESERVA_REPROG`,
`RESP_RESERVA_NEGADA`); the C struct's `horaAsignada` field is left
uninitialized on a denial, so the denial constructor carries only
`horaActual`. -/
inductive Respuesta where
  | aprobada (horaAsignada horaActual : Int)
  | reprogramada (horaAsignada horaActual : Int)
  | negada (horaActual : Int)
deriving DecidableEq

/-- The mutable global state of the controller that the scheduling engine
touches: current virtual hour, occupancy per hour, reservation store, and
the three statistics counters. -/
structure Estado where
  horaActual : Int
  ocupacionPorHora : Int → Int
  reservas : List Reserva
  solicitudesNegadas : Int
  solicitudesAceptadas : Int
  solicitudesReprogramadas : Int

/-- The loop of `verificarDisponibilidad`:
`for (h = hora; h < hora + DURACION_RESERVA && validarHora(h); h++)`
returning 0 as soon as `ocupacionPorHora[indiceHora(h)] + numPersonas >
aforoMaximo`, and 1 when the loop ends (also when it ends early because
`validarHora(h)` fails). The counter `k` counts the remaining iterations
allowed by the bound `h < hora + DURACION_RESERVA`. -/
def disponibilidadDesde (cfg : Config) (ocup : Int → Int) (numPersonas : Int) :
    Int → Nat → Bool
  | _, 0 => true
  | h, k + 1 =>
    if validarHora h then
      if ocup h + numPersonas > cfg.aforoMaximo then false
      else disponibilidadDesde cfg ocup numPersonas (h + 1) k
    else true

/-- Mirrors `int verificarDisponibilidad(int hora, int numPersonas)`. -/
def verificarDisponibilidad (cfg : Config) (ocup : Int → Int)
    (hora numPersonas : Int) : Bool :=
  disponibilidadDesde cfg ocup numPersonas hora DURACION_RESERVA.toNat

/-- The inner loop of `buscarHoraAlternativa`:
`for (offset = 0; offset < DURACION_RESERVA; offset++)` clearing
`disponible` (and breaking) when `!validarHora(h + offset)` or
`ocupacionPorHora[indiceHora(h + offset)] + numPersonas > aforoMaximo`. -/
def ventanaValidaDesde (cfg : Config) (ocup : Int → Int) (numPersonas : Int) :
    Int → Nat → Bool
  | _, 0 => true
  | h, k + 1 =>
    if validarHora h && decide (ocup h + numPersonas ≤ cfg.aforoMaximo) then
      ventanaValidaDesde cfg ocup numPersonas (h + 1) k
    else false

/-- The outer loop of `buscarHoraAlternativa`:
`for (h = horaActual; h <= horaFinal - DURACION_RESERVA + 1; h++)` returning
the first `h` whose window is available. `k` counts the remaining candidate
hours. -/
def buscarDesde (cfg : Config) (ocup : Int → Int) (numPersonas : Int) :
    Int → Nat → Option Int
  | _, 0 => none
  | h, k + 1 =>
    if ventanaValidaDesde cfg ocup numPersonas h DURACION_RESERVA.toNat then
      some h
    else buscarDesde cfg ocup numPersonas (h + 1) k

/-- Mirrors `int buscarHoraAlternativa(int numPersonas, int *horaEncontrada)`:
scans `h` from `horaActual` to `horaFinal - DURACION_RESERVA + 1`
inclusive, returning the first hour whose whole window is in range and has
room; the out-parameter/flag pair becomes an `Option Int`. -/
def buscarHoraAlternativa (cfg : Config) (ocup : Int → Int)
    (horaActual numPersonas : Int) : Option Int :=
  buscarDesde cfg ocup numPersonas horaActual
    ((cfg.horaFinal - DURACION_RESERVA + 1) + 1 - horaActual).toNat

/-- The occupancy-update loop of a commit:
`for (h = hora; h < hora + DURACION_RESERVA && validarHora(h); h++)
  ocupacionPorHora[indiceHora(h)] += numPersonas;` -/
def actualizarOcupacionDesde (ocup : Int → Int) (numPersonas : Int) :
    Int → Nat → (Int → Int)
  | _, 0 => ocup
  | h, k + 1 =>
    if validarHora h then
      actualizarOcupacionDesde
        (fun x => if x = h then ocup x + numPersonas else ocup x)
        numPersonas (h + 1) k
    else ocup

/-- The commit block that `procesarSolicitudReserva` performs (three times,
verbatim, in the C source) once an hour has been chosen: append a new
inactive record to `reservas[]` with `horaFin = hora + DURACION_RESERVA - 1`
and add `numPersonas` to every in-range hour of the window. -/
def registrarReserva (msg : MensajeAgente) (hora : Int) (st : Estado) : Estado :=
  { st with
    reservas := st.reservas ++
      [{ nombreFamilia := msg.nombreFamilia
         nombreAgente := msg.nombreAgente
         horaInicio := hora
         horaFin := hora + DURACION_RESERVA - 1
         numPersonas := msg.numPersonas
         activa := false }]
    ocupacionPorHora :=
      actualizarOcupacionDesde st.ocupacionPorHora msg.numPersonas hora
        DURACION_RESERVA.toNat }

/-- Mirrors `void procesarSolicitudReserva(MensajeAgente *msg)`: the request handler,
returning the new state together with the response record written to the
agent's pipe. Branch order follows the source: hour-range check, capacity
check, late-arrival reschedule, end-of-day check, availability at the
requested hour, reschedule fallback. -/
def procesarSolicitudReserva (cfg : Config) (st : Estado)
    (msg : MensajeAgente) : Estado × Respuesta :=
  if ¬ validarHora msg.horaSolicitada then
    ({ st with solicitudesNegadas := st.solicitudesNegadas + 1 },
     .negada st.horaActual)
  else if msg.numPersonas > cfg.aforoMaximo then
    ({ st with solicitudesNegadas := st.solicitudesNegadas + 1 },
     .negada st.horaActual)
  else if msg.horaSolicitada < st.horaActual then
    match buscarHoraAlternativa cfg st.ocupacionPorHora st.horaActual
        msg.numPersonas with
    | some horaAlternativa =>
        (registrarReserva msg horaAlternativa
          { st with solicitudesReprogramadas := st.solicitudesReprogramadas + 1 },
         .reprogramada horaAlternativa st.horaActual)
    | none =>
        ({ st with solicitudesNegadas := st.solicitudesNegadas + 1 },
         .negada st.horaActual)
  else if msg.horaSolicitada > cfg.horaFinal then
    ({ st with solicitudesNegadas := st.solicitudesNegadas + 1 },
     .negada st.horaActual)
  else if verificarDisponibilidad cfg st.ocupacionPorHora msg.horaSolicitada
      msg.numPersonas then
    (registrarReserva msg msg.horaSolicitada
      { st with solicitudesAceptadas := st.solicitudesAceptadas + 1 },
     .aprobada msg.horaSolicitada st.horaActual)
  else
    match buscarHoraAlternativa cfg st.ocupacionPorHora st.horaActual
        msg.numPersonas with
    | some horaAlternativa =>
        (registrarReserva msg horaAlternativa
          { st with solicitudesReprogramadas := st.solicitudesReprogramadas + 1 },
         .reprogramada horaAlternativa st.horaActual)
    | none =>
        ({ st with solicitudesNegadas := st.solicitudesNegadas + 1 },
         .negada st.horaActual)

/-- Body of the first pass of `avanzarHora`: activate a record whose start
hour equals the new current hour (`horaInicio == horaActual && !activa`). -/
def activarRegistro (nuevaHora : Int) (r : Reserva) : Reserva :=
  if r.horaInicio = nuevaHora ∧ r.activa = false then
    { r with activa := true } else r

/-- Body of the second pass of `avanzarHora`: deactivate a record whose end
hour is already past (`horaFin < horaActual && activa`). -/
def desactivarRegistro (nuevaHora : Int) (r : Reserva) : Reserva :=
  if r.horaFin < nuevaHora ∧ r.activa = true then
    { r with activa := false } else r

/-- Mirrors `void avanzarHora()`: increment the hour, then two passes over the store —
activate records that start at the new hour, then deactivate records that
have ended. -/
def avanzarHora (st : Estado) : Estado :=
  let nuevaHora := st.horaActual + 1
  { st with horaActual := nuevaHora
            reservas := (st.reservas.map (activarRegistro nuevaHora)).map
              (desactivarRegistro nuevaHora) }

/-- A run of the handler over a list of reservation requests (the listener
thread dispatches them one at a time). -/
def procesarLista (cfg : Config) (st : Estado) (msgs : List MensajeAgente) :
    Estado :=
  msgs.foldl (fun s m => (procesarSolicitudReserva cfg s m).1) st

/-- One operation of the run touching the scheduling state: either the
handler processing one reservation request, or one clock tick. -/
inductive Operacion where
  | solicitud (msg : MensajeAgente)
  | tick

/-- Execute one operation. -/
def ejecutarOperacion (cfg : Config) (st : Estado) : Operacion → Estado
  | .solicitud msg => (procesarSolicitudReserva cfg st msg).1
  | .tick => avanzarHora st

/-- Execute a sequence of operations. -/
def ejecutarLista (cfg : Config) (st : Estado) (ops : List Operacion) : Estado :=
  ops.foldl (ejecutarOperacion cfg) st

/-- A valid candidate hour for the alternative search, in the words of the
availability test: every hour of the two-hour window starting at `h` is in
the operating range and has room for `numPersonas` more people. -/
def CandidatoValido (cfg : Config) (ocup : Int → Int) (numPersonas h : Int) :
    Prop :=
  ∀ x, h ≤ x → x < h + DURACION_RESERVA →
    (validarHora x = true ∧ ocup x + numPersonas ≤ cfg.aforoMaximo)

/-- A configuration matching the spec scenarios: end hour 19, capacity 100. -/
def cfgEjemplo : Config := ⟨19, 100⟩

/-- An empty occupancy table. -/
def ocupacionVacia : Int → Int := fun _ => 0

/-- The freshly initialized controller state at a given current hour. -/
def estadoInicial (hora : Int) : Estado := ⟨hora, ocupacionVacia, [], 0, 0, 0⟩

/-- A concrete reservation request. -/
def mensajeEjemplo (hora n : Int) : MensajeAgente :=
  ⟨"agente1", "pipe1", "FamiliaA", hora, n⟩

/-- A state holding two reservations, used to exercise the clock tick. -/
def estadoReloj : Estado :=
  ⟨9, ocupacionVacia,
   [⟨"FamiliaA", "agente1", 10, 11, 5, false⟩,
    ⟨"FamiliaB", "agente2", 8, 9, 4, true⟩], 0, 0, 0⟩

/-! ### Characterization of the loops -/

lemma validarHora_iff (h : Int) : validarHora h = true ↔ 7 ≤ h ∧ h ≤ 19 := by
  simp [validarHora, HORAS_MIN, HORAS_MAX]

lemma duracion_toNat : DURACION_RESERVA.toNat = 2 := rfl

/-- Pointwise effect of the commit loop: hour `x` is charged exactly when it
lies in the window `[h, h + k)` and the whole loop prefix up to `x` stayed in
the operating range (which, the range being an interval, amounts to
`7 ≤ h ∧ x ≤ 19`). -/
lemma actualizarOcupacionDesde_apply (numPersonas : Int) :
    ∀ (k : Nat) (ocup : Int → Int) (h x : Int),
      actualizarOcupacionDesde ocup numPersonas h k x =
        if h ≤ x ∧ x < h + (k : Int) ∧ 7 ≤ h ∧ x ≤ 19
        then ocup x + numPersonas else ocup x := by
  intro k
  induction k with
  | zero =>
    intro ocup h x
    simp only [actualizarOcupacionDesde, Nat.cast_zero]
    rw [if_neg (by omega)]
  | succ k ih =>
    intro ocup h x
    simp only [actualizarOcupacionDesde]
    by_cases hv : validarHora h = true
    · rw [if_pos hv, ih]
      rw [validarHora_iff] at hv
      push_cast
      by_cases hx : x = h
      · subst hx
        rw [if_neg (by omega), if_pos rfl, if_pos (by omega)]
      · rw [if_neg hx]
        by_cases hc : h + 1 ≤ x ∧ x < h + 1 + (k : Int) ∧ 7 ≤ h + 1 ∧ x ≤ 19
        · rw [if_pos hc, if_pos (by omega)]
        · rw [if_neg hc, if_neg (by omega)]
    · rw [if_neg hv, validarHora_iff] at *
      rw [if_neg (by push_cast; omega)]

/-- The availability loop of `verificarDisponibilidad` succeeds iff every
hour it actually visits (the in-range prefix of the window) has room. -/
lemma disponibilidadDesde_eq_true (cfg : Config) (ocup : Int → Int)
    (numPersonas : Int) :
    ∀ (k : Nat) (h : Int),
      disponibilidadDesde cfg ocup numPersonas h k = true ↔
        ∀ x, h ≤ x → x < h + (k : Int) → 7 ≤ h → x ≤ 19 →
          ocup x + numPersonas ≤ cfg.aforoMaximo := by
  intro k
  induction k with
  | zero =>
    intro h
    simp only [disponibilidadDesde, Nat.cast_zero]
    constructor
    · intro _ x hx1 hx2
      omega
    · intro _
      trivial
  | succ k ih =>
    intro h
    simp only [disponibilidadDesde]
    by_cases hv : validarHora h = true
    · rw [if_pos hv]
      rw [validarHora_iff] at hv
      by_cases hc : ocup h + numPersonas > cfg.aforoMaximo
      · rw [if_pos hc]
        simp only [Bool.false_eq_true, false_iff, not_forall]
        refine ⟨h, le_rfl, by push_cast; omega, hv.1, hv.2, by omega⟩
      · rw [if_neg hc, ih]
        constructor
        · intro hall x hx1 hx2 _ hx4
          rcases eq_or_lt_of_le hx1 with rfl | hlt
          · omega
          · exact hall x (by omega) (by push_cast at hx2 ⊢; omega) (by omega) hx4
        · intro hall x hx1 hx2 _ hx4
          exact hall x (by omega) (by push_cast at hx2 ⊢; omega) hv.1 hx4
    · rw [if_neg hv]
      rw [validarHora_iff] at hv
      simp only [true_iff]
      intro x hx1 hx2 hx3 hx4
      omega

/-- The inner window test of `buscarHoraAlternativa` succeeds iff every hour
of the scanned window is in range and has room. -/
lemma ventanaValidaDesde_eq_true (cfg : Config) (ocup : Int → Int)
    (numPersonas : Int) :
    ∀ (k : Nat) (h : Int),
      ventanaValidaDesde cfg ocup numPersonas h k = true ↔
        ∀ x, h ≤ x → x < h + (k : Int) →
          (validarHora x = true ∧ ocup x + numPersonas ≤ cfg.aforoMaximo) := by
  intro k
  induction k with
  | zero =>
    intro h
    simp only [ventanaValidaDesde, Nat.cast_zero]
    constructor
    · intro _ x hx1 hx2
      omega
    · intro _
      trivial
  | succ k ih =>
    intro h
    simp only [ventanaValidaDesde]
    by_cases hv : validarHora h = true ∧ ocup h + numPersonas ≤ cfg.aforoMaximo
    · rw [if_pos (by simp [hv.1, hv.2]), ih]
      constructor
      · intro hall x hx1 hx2
        rcases eq_or_lt_of_le hx1 with rfl | hlt
        · exact hv
        · exact hall x (by omega) (by push_cast at hx2 ⊢; omega)
      · intro hall x hx1 hx2
        exact hall x (by omega) (by push_cast at hx2 ⊢; omega)
    · rw [if_neg (by simpa using fun a b => hv ⟨a, b⟩)]
      constructor
      · intro hcon
        exact absurd hcon (by simp)
      · intro hall
        exact absurd (hall h le_rfl (by push_cast; omega)) hv

/-- The two-hour window test is exactly `CandidatoValido`. -/
lemma ventana_iff_candidato (cfg : Config) (ocup : Int → Int)
    (numPersonas h : Int) :
    ventanaValidaDesde cfg ocup numPersonas h DURACION_RESERVA.toNat = true ↔
      CandidatoValido cfg ocup numPersonas h := by
  rw [duracion_toNat, ventanaValidaDesde_eq_true]
  unfold CandidatoValido DURACION_RESERVA
  norm_num

/-- The outer scan of `buscarHoraAlternativa` returns `h'` iff `h'` is the
first hour in the scanned range whose window test succeeds. -/
lemma buscarDesde_eq_some (cfg : Config) (ocup : Int → Int)
    (numPersonas : Int) :
    ∀ (k : Nat) (h h' : Int),
      buscarDesde cfg ocup numPersonas h k = some h' ↔
        h ≤ h' ∧ h' < h + (k : Int) ∧ CandidatoValido cfg ocup numPersonas h' ∧
          ∀ y, h ≤ y → y < h' → ¬ CandidatoValido cfg ocup numPersonas y := by
  intro k
  induction k with
  | zero =>
    intro h h'
    simp only [buscarDesde, Nat.cast_zero]
    constructor
    · intro hcon
      exact absurd hcon (by simp)
    · intro hcon
      omega
  | succ k ih =>
    intro h h'
    simp only [buscarDesde]
    by_cases hv : ventanaValidaDesde cfg ocup numPersonas h DURACION_RESERVA.toNat = true
    · rw [if_pos hv]
      rw [ventana_iff_candidato] at hv
      constructor
      · intro hsome
        have hh : h = h' := by simpa using hsome
        subst hh
        exact ⟨le_rfl, by push_cast; omega, hv, fun y hy1 hy2 _ => by omega⟩
      · intro ⟨h1, _, _, h4⟩
        rcases eq_or_lt_of_le h1 with rfl | hlt
        · rfl
        · exact absurd hv (h4 h le_rfl hlt)
    · rw [if_neg hv, ih]
      rw [ventana_iff_candidato] at hv
      constructor
      · intro ⟨h1, h2, h3, h4⟩
        refine ⟨by omega, by push_cast at h2 ⊢; omega, h3, fun y hy1 hy2 => ?_⟩
        rcases eq_or_lt_of_le hy1 with rfl | hlt
        · exact hv
        · exact h4 y (by omega) hy2
      · intro ⟨h1, h2, h3, h4⟩
        have hne : h ≠ h' := fun hcon => hv (hcon ▸ h3)
        exact ⟨by omega, by push_cast at h2 ⊢; omega, h3,
          fun y hy1 hy2 => h4 y (by omega) hy2⟩

/-- The outer scan of `buscarHoraAlternativa` fails iff no hour in the
scanned range passes the window test. -/
lemma buscarDesde_eq_none (cfg : Config) (ocup : Int → Int)
    (numPersonas : Int) :
    ∀ (k : Nat) (h : Int),
      buscarDesde cfg ocup numPersonas h k = none ↔
        ∀ y, h ≤ y → y < h + (k : Int) →
          ¬ CandidatoValido cfg ocup numPersonas y := by
  intro k
  induction k with
  | zero =>
    intro h
    simp only [buscarDesde, Nat.cast_zero]
    constructor
    · intro _ y hy1 hy2
      omega
    · intro _
      trivial
  | succ k ih =>
    intro h
    simp only [buscarDesde]
    by_cases hv : ventanaValidaDesde cfg ocup numPersonas h DURACION_RESERVA.toNat = true
    · rw [if_pos hv]
      rw [ventana_iff_candidato] at hv
      constructor
      · intro hcon
        exact absurd hcon (by simp)
      · intro hall
        exact absurd hv (hall h le_rfl (by push_cast; omega))
    · rw [if_neg hv, ih]
      rw [ventana_iff_candidato] at hv
      constructor
      · intro hall y hy1 hy2
        rcases eq_or_lt_of_le hy1 with rfl | hlt
        · exact hv
        · exact hall y (by omega) (by push_cast at hy2 ⊢; omega)
      · intro hall y hy1 hy2
        exact hall y (by omega) (by push_cast at hy2 ⊢; omega)

/-- The check `verificarDisponibilidad` succeeds iff every in-range hour of the window
`[hora, hora + DURACION_RESERVA)` has room (hours past `HORAS_MAX` are
skipped by the loop guard, and nothing is checked when `hora` is below
`HORAS_MIN`). -/
lemma verificarDisponibilidad_eq_true (cfg : Config) (ocup : Int → Int)
    (hora numPersonas : Int) :
    verificarDisponibilidad cfg ocup hora numPersonas = true ↔
      ∀ x, hora ≤ x → x < hora + DURACION_RESERVA → 7 ≤ hora → x ≤ 19 →
        ocup x + numPersonas ≤ cfg.aforoMaximo := by
  rw [verificarDisponibilidad, duracion_toNat, disponibilidadDesde_eq_true]
  norm_num [DURACION_RESERVA]

/-- The scan `buscarHoraAlternativa` returns `h'` iff `h'` is the earliest valid
candidate at or after the current hour, within the scan bound
`horaFinal - DURACION_RESERVA + 1`. -/
lemma buscarHoraAlternativa_eq_some (cfg : Config) (ocup : Int → Int)
    (horaActual numPersonas h' : Int) :
    buscarHoraAlternativa cfg ocup horaActual numPersonas = some h' ↔
      horaActual ≤ h' ∧ h' ≤ cfg.horaFinal - DURACION_RESERVA + 1 ∧
        CandidatoValido cfg ocup numPersonas h' ∧
        ∀ y, horaActual ≤ y → y < h' →
          ¬ CandidatoValido cfg ocup numPersonas y := by
  rw [buscarHoraAlternativa, buscarDesde_eq_some]
  simp only [DURACION_RESERVA]
  constructor
  · intro ⟨k1, k2, k3, k4⟩
    exact ⟨k1, by omega, k3, k4⟩
  · intro ⟨k1, k2, k3, k4⟩
    exact ⟨k1, by omega, k3, k4⟩

/-- The scan `buscarHoraAlternativa` fails iff no hour in the scanned range is a
valid candidate. -/
lemma buscarHoraAlternativa_eq_none (cfg : Config) (ocup : Int → Int)
    (horaActual numPersonas : Int) :
    buscarHoraAlternativa cfg ocup horaActual numPersonas = none ↔
      ∀ y, horaActual ≤ y → y ≤ cfg.horaFinal - DURACION_RESERVA + 1 →
        ¬ CandidatoValido cfg ocup numPersonas y := by
  rw [buscarHoraAlternativa, buscarDesde_eq_none]
  simp only [DURACION_RESERVA]
  constructor
  · intro hall y hy1 hy2
    exact hall y hy1 (by omega)
  · intro hall y hy1 hy2
    exact hall y hy1 (by omega)

/-- Pointwise effect of a commit on the occupancy table. -/
lemma registrarReserva_ocupacion (msg : MensajeAgente) (hora : Int)
    (st : Estado) (x : Int) :
    (registrarReserva msg hora st).ocupacionPorHora x =
      if hora ≤ x ∧ x < hora + DURACION_RESERVA ∧ 7 ≤ hora ∧ x ≤ 19
      then st.ocupacionPorHora x + msg.numPersonas
      else st.ocupacionPorHora x := by
  show actualizarOcupacionDesde st.ocupacionPorHora msg.numPersonas hora
      DURACION_RESERVA.toNat x = _
  rw [actualizarOcupacionDesde_apply, duracion_toNat]
  norm_num [DURACION_RESERVA]

/-- A commit does not change the reservation store except by appending the
new record. -/
lemma registrarReserva_reservas (msg : MensajeAgente) (hora : Int)
    (st : Estado) :
    (registrarReserva msg hora st).reservas = st.reservas ++
      [{ nombreFamilia := msg.nombreFamilia
         nombreAgente := msg.nombreAgente
         horaInicio := hora
         horaFin := hora + DURACION_RESERVA - 1
         numPersonas := msg.numPersonas
         activa := false }] := rfl

/-! ### Branch equations of `procesarSolicitudReserva` -/

lemma procesar_eq_hora_invalida (cfg : Config) (st : Estado)
    (msg : MensajeAgente) (h1 : validarHora msg.horaSolicitada = false) :
    procesarSolicitudReserva cfg st msg =
      ({ st with solicitudesNegadas := st.solicitudesNegadas + 1 },
       .negada st.horaActual) := by
  unfold procesarSolicitudReserva
  rw [if_pos (by simp [h1])]

lemma procesar_eq_aforo_excedido (cfg : Config) (st : Estado)
    (msg : MensajeAgente) (h1 : validarHora msg.horaSolicitada = true)
    (h2 : msg.numPersonas > cfg.aforoMaximo) :
    procesarSolicitudReserva cfg st msg =
      ({ st with solicitudesNegadas := st.solicitudesNegadas + 1 },
       .negada st.horaActual) := by
  unfold procesarSolicitudReserva
  rw [if_neg (by simp [h1]), if_pos h2]

lemma procesar_eq_tardia_some (cfg : Config) (st : Estado)
    (msg : MensajeAgente) (h' : Int)
    (h1 : validarHora msg.horaSolicitada = true)
    (h2 : ¬ msg.numPersonas > cfg.aforoMaximo)
    (h3 : msg.horaSolicitada < st.horaActual)
    (hb : buscarHoraAlternativa cfg st.ocupacionPorHora st.horaActual
        msg.numPersonas = some h') :
    procesarSolicitudReserva cfg st msg =
      (registrarReserva msg h'
        { st with solicitudesReprogramadas := st.solicitudesReprogramadas + 1 },
       .reprogramada h' st.horaActual) := by
  unfold procesarSolicitudReserva
  rw [if_neg (by simp [h1]), if_neg h2, if_pos h3, hb]

lemma procesar_eq_tardia_none (cfg : Config) (st : Estado)
    (msg : MensajeAgente)
    (h1 : validarHora msg.horaSolicitada = true)
    (h2 : ¬ msg.numPersonas > cfg.aforoMaximo)
    (h3 : msg.horaSolicitada < st.horaActual)
    (hb : buscarHoraAlternativa cfg st.ocupacionPorHora st.horaActual
        msg.numPersonas = none) :
    procesarSolicitudReserva cfg st msg =
      ({ st with solicitudesNegadas := st.solicitudesNegadas + 1 },
       .negada st.horaActual) := by
  unfold procesarSolicitudReserva
  rw [if_neg (by simp [h1]), if_neg h2, if_pos h3, hb]

lemma procesar_eq_fuera_periodo (cfg : Config) (st : Estado)
    (msg : MensajeAgente)
    (h1 : validarHora msg.horaSolicitada = true)
    (h2 : ¬ msg.numPersonas > cfg.aforoMaximo)
    (h3 : ¬ msg.horaSolicitada < st.horaActual)
    (h4 : msg.horaSolicitada > cfg.horaFinal) :
    procesarSolicitudReserva cfg st msg =
      ({ st with solicitudesNegadas := st.solicitudesNegadas + 1 },
       .negada st.horaActual) := by
  unfold procesarSolicitudReserva
  rw [if_neg (by simp [h1]), if_neg h2, if_neg h3, if_pos h4]

lemma procesar_eq_disponible (cfg : Config) (st : Estado)
    (msg : MensajeAgente)
    (h1 : validarHora msg.horaSolicitada = true)
    (h2 : ¬ msg.numPersonas > cfg.aforoMaximo)
    (h3 : ¬ msg.horaSolicitada < st.horaActual)
    (h4 : ¬ msg.horaSolicitada > cfg.horaFinal)
    (h5 : verificarDisponibilidad cfg st.ocupacionPorHora msg.horaSolicitada
        msg.numPersonas = true) :
    procesarSolicitudReserva cfg st msg =
      (registrarReserva msg msg.horaSolicitada
        { st with solicitudesAceptadas := st.solicitudesAceptadas + 1 },
       .aprobada msg.horaSolicitada st.horaActual) := by
  unfold procesarSolicitudReserva
  rw [if_neg (by simp [h1]), if_neg h2, if_neg h3, if_neg h4, if_pos h5]

lemma procesar_eq_no_disponible_some (cfg : Config) (st : Estado)
    (msg : MensajeAgente) (h' : Int)
    (h1 : validarHora msg.horaSolicitada = true)
    (h2 : ¬ msg.numPersonas > cfg.aforoMaximo)
    (h3 : ¬ msg.horaSolicitada < st.horaActual)
    (h4 : ¬ msg.horaSolicitada > cfg.horaFinal)
    (h5 : verificarDisponibilidad cfg st.ocupacionPorHora msg.horaSolicitada
        msg.numPersonas = false)
    (hb : buscarHoraAlternativa cfg st.ocupacionPorHora st.horaActual
        msg.numPersonas = some h') :
    procesarSolicitudReserva cfg st msg =
      (registrarReserva msg h'
        { st with solicitudesReprogramadas := st.solicitudesReprogramadas + 1 },
       .reprogramada h' st.horaActual) := by
  unfold procesarSolicitudReserva
  rw [if_neg (by simp [h1]), if_neg h2, if_neg h3, if_neg h4,
    if_neg (by simp [h5]), hb]

lemma procesar_eq_no_disponible_none (cfg : Config) (st : Estado)
    (msg : MensajeAgente)
    (h1 : validarHora msg.horaSolicitada = true)
    (h2 : ¬ msg.numPersonas > cfg.aforoMaximo)
    (h3 : ¬ msg.horaSolicitada < st.horaActual)
    (h4 : ¬ msg.horaSolicitada > cfg.horaFinal)
    (h5 : verificarDisponibilidad cfg st.ocupacionPorHora msg.horaSolicitada
        msg.numPersonas = false)
    (hb : buscarHoraAlternativa cfg st.ocupacionPorHora st.horaActual
        msg.numPersonas = none) :
    procesarSolicitudReserva cfg st msg =
      ({ st with solicitudesNegadas := st.solicitudesNegadas + 1 },
       .negada st.horaActual) := by
  unfold procesarSolicitudReserva
  rw [if_neg (by simp [h1]), if_neg h2, if_neg h3, if_neg h4,
    if_neg (by simp [h5]), hb]

/-- Every execution of the handler ends in one of three shapes: a denial
(which only bumps `solicitudesNegadas`), an approval at the requested hour
(possible only when the hour is in range and `verificarDisponibilidad`
succeeded), or a reschedule at an hour returned by
`buscarHoraAlternativa`. -/
lemma procesar_cases (cfg : Config) (st : Estado) (msg : MensajeAgente)
    (P : Estado × Respuesta → Prop)
    (hden : P ({ st with solicitudesNegadas := st.solicitudesNegadas + 1 },
      .negada st.horaActual))
    (hap : validarHora msg.horaSolicitada = true →
      verificarDisponibilidad cfg st.ocupacionPorHora msg.horaSolicitada
        msg.numPersonas = true →
      P (registrarReserva msg msg.horaSolicitada
          { st with solicitudesAceptadas := st.solicitudesAceptadas + 1 },
        .aprobada msg.horaSolicitada st.horaActual))
    (hrep : ∀ h', buscarHoraAlternativa cfg st.ocupacionPorHora st.horaActual
        msg.numPersonas = some h' →
      P (registrarReserva msg h'
          { st with solicitudesReprogramadas := st.solicitudesReprogramadas + 1 },
        .reprogramada h' st.horaActual)) :
    P (procesarSolicitudReserva cfg st msg) := by
  by_cases h1 : validarHora msg.horaSolicitada = true
  · by_cases h2 : msg.numPersonas > cfg.aforoMaximo
    · rw [procesar_eq_aforo_excedido cfg st msg h1 h2]
      exact hden
    · by_cases h3 : msg.horaSolicitada < st.horaActual
      · cases hb : buscarHoraAlternativa cfg st.ocupacionPorHora st.horaActual
            msg.numPersonas with
        | none =>
          rw [procesar_eq_tardia_none cfg st msg h1 h2 h3 hb]
          exact hden
        | some h' =>
          rw [procesar_eq_tardia_some cfg st msg h' h1 h2 h3 hb]
          exact hrep h' hb
      · by_cases h4 : msg.horaSolicitada > cfg.horaFinal
        · rw [procesar_eq_fuera_periodo cfg st msg h1 h2 h3 h4]
          exact hden
        · by_cases h5 : verificarDisponibilidad cfg st.ocupacionPorHora
              msg.horaSolicitada msg.numPersonas = true
          · rw [procesar_eq_disponible cfg st msg h1 h2 h3 h4 h5]
            exact hap h1 h5
          · cases hb : buscarHoraAlternativa cfg st.ocupacionPorHora st.horaActual
                msg.numPersonas with
            | none =>
              rw [procesar_eq_no_disponible_none cfg st msg h1 h2 h3 h4
                (by simpa using h5) hb]
              exact hden
            | some h' =>
              rw [procesar_eq_no_disponible_some cfg st msg h' h1 h2 h3 h4
                (by simpa using h5) hb]
              exact hrep h' hb
  · rw [procesar_eq_hora_invalida cfg st msg (by simpa using h1)]
    exact hden

/-- One handler execution preserves the capacity bound on every in-range
hour: a commit only charges hours whose availability was checked against the
same occupancy values under the same lock. -/
lemma procesar_preserva_aforo (cfg : Config) (st : Estado) (msg : MensajeAgente)
    (hinv : ∀ h, validarHora h = true →
      st.ocupacionPorHora h ≤ cfg.aforoMaximo) :
    ∀ h, validarHora h = true →
      (procesarSolicitudReserva cfg st msg).1.ocupacionPorHora h ≤
        cfg.aforoMaximo := by
  apply procesar_cases cfg st msg
    (fun res => ∀ h, validarHora h = true →
      res.1.ocupacionPorHora h ≤ cfg.aforoMaximo)
  · exact hinv
  · intro h1 h5 h hh
    rw [registrarReserva_ocupacion]
    split_ifs with hc
    · exact (verificarDisponibilidad_eq_true _ _ _ _).mp h5 h hc.1 hc.2.1
        hc.2.2.1 hc.2.2.2
    · exact hinv h hh
  · intro h' hb h hh
    have hcand : CandidatoValido cfg st.ocupacionPorHora msg.numPersonas h' :=
      ((buscarHoraAlternativa_eq_some _ _ _ _ _).mp hb).2.2.1
    rw [registrarReserva_ocupacion]
    split_ifs with hc
    · exact (hcand h hc.1 hc.2.1).2
    · exact hinv h hh

/-- One handler execution never decreases any occupancy counter, provided the
request's party size is nonnegative. -/
lemma procesar_ocupacion_monotona (cfg : Config) (st : Estado)
    (msg : MensajeAgente) (hn : 0 ≤ msg.numPersonas) :
    ∀ x, st.ocupacionPorHora x ≤
      (procesarSolicitudReserva cfg st msg).1.ocupacionPorHora x := by
  apply procesar_cases cfg st msg
    (fun res => ∀ x, st.ocupacionPorHora x ≤ res.1.ocupacionPorHora x)
  · intro x
    exact le_refl _
  · intro _ _ x
    rw [registrarReserva_ocupacion]
    dsimp only
    split_ifs
    · omega
    · exact le_refl _
  · intro h' _ x
    rw [registrarReserva_ocupacion]
    dsimp only
    split_ifs
    · omega
    · exact le_refl _

/-- The clock tick leaves the occupancy table untouched. -/
lemma avanzarHora_ocupacion (st : Estado) :
    (avanzarHora st).ocupacionPorHora = st.ocupacionPorHora := rfl

/-- Closed form of the activation pass on one record. -/
lemma activarRegistro_spec (nuevaHora : Int) (r : Reserva) :
    activarRegistro nuevaHora r =
      { r with activa := r.activa || decide (r.horaInicio = nuevaHora) } := by
  unfold activarRegistro
  obtain ⟨nf, na, hi, hfin, np, ac⟩ := r
  by_cases h : hi = nuevaHora
  · cases ac <;> simp [h]
  · cases ac <;> simp [h]

/-- Closed form of the deactivation pass on one record. -/
lemma desactivarRegistro_spec (nuevaHora : Int) (r : Reserva) :
    desactivarRegistro nuevaHora r =
      { r with activa := r.activa && !decide (r.horaFin < nuevaHora) } := by
  unfold desactivarRegistro
  obtain ⟨nf, na, hi, hfin, np, ac⟩ := r
  by_cases h : hfin < nuevaHora
  · cases ac <;> simp [h]
  · cases ac <;> simp [h]

/-! ### The claims -/

/-- C6: if the requested hour is outside the operating range [7, 19], or the
party size exceeds the configured maximum capacity, the handler responds
DENIED, whatever the other request fields and the current virtual hour. -/
theorem claim_C6 (cfg : Config) (st : Estado) (msg : MensajeAgente)
    (hbad : ¬ (7 ≤ msg.horaSolicitada ∧ msg.horaSolicitada ≤ 19) ∨
      msg.numPersonas > cfg.aforoMaximo) :
    (procesarSolicitudReserva cfg st msg).2 = Respuesta.negada st.horaActual := by
  by_cases h1 : validarHora msg.horaSolicitada = true
  · rcases hbad with hbad | hbad
    · exact absurd ((validarHora_iff _).mp h1) hbad
    · rw [procesar_eq_aforo_excedido cfg st msg h1 hbad]
  · rw [procesar_eq_hora_invalida cfg st msg (by simpa using h1)]

/-- C6 witness: a request for hour 20 at current hour 10 is DENIED. -/
theorem claim_C6_witness :
    (procesarSolicitudReserva cfgEjemplo (estadoInicial 10)
      (mensajeEjemplo 20 50)).2 = Respuesta.negada 10 :=
  claim_C6 cfgEjemplo (estadoInicial 10) (mensajeEjemplo 20 50)
    (Or.inl (by decide))

/-- C7: whenever the handler responds DENIED, the occupancy counters, the
reservation store and the current hour are unchanged, the denied counter is
incremented by one, and the accepted and rescheduled counters are
unchanged. -/
theorem claim_C7 (cfg : Config) (st : Estado) (msg : MensajeAgente) (h0 : Int)
    (hden : (procesarSolicitudReserva cfg st msg).2 = Respuesta.negada h0) :
    (∀ x, (procesarSolicitudReserva cfg st msg).1.ocupacionPorHora x =
      st.ocupacionPorHora x) ∧
    (procesarSolicitudReserva cfg st msg).1.reservas = st.reservas ∧
    (procesarSolicitudReserva cfg st msg).1.horaActual = st.horaActual ∧
    (procesarSolicitudReserva cfg st msg).1.solicitudesNegadas =
      st.solicitudesNegadas + 1 ∧
    (procesarSolicitudReserva cfg st msg).1.solicitudesAceptadas =
      st.solicitudesAceptadas ∧
    (procesarSolicitudReserva cfg st msg).1.solicitudesReprogramadas =
      st.solicitudesReprogramadas := by
  revert hden
  apply procesar_cases cfg st msg
    (fun res => res.2 = Respuesta.negada h0 →
      (∀ x, res.1.ocupacionPorHora x = st.ocupacionPorHora x) ∧
      res.1.reservas = st.reservas ∧
      res.1.horaActual = st.horaActual ∧
      res.1.solicitudesNegadas = st.solicitudesNegadas + 1 ∧
      res.1.solicitudesAceptadas = st.solicitudesAceptadas ∧
      res.1.solicitudesReprogramadas = st.solicitudesReprogramadas)
  · intro _
    exact ⟨fun _ => rfl, rfl, rfl, rfl, rfl, rfl⟩
  · intro _ _ hcon
    exact absurd hcon (by simp)
  · intro h' _ hcon
    exact absurd hcon (by simp)

/-- C7 witness: a request for 150 people against capacity 100 is DENIED with
no state change except the denied counter. -/
theorem claim_C7_witness :
    (procesarSolicitudReserva cfgEjemplo (estadoInicial 10)
      (mensajeEjemplo 12 150)).1.ocupacionPorHora 12 =
        (estadoInicial 10).ocupacionPorHora 12 ∧
    (procesarSolicitudReserva cfgEjemplo (estadoInicial 10)
      (mensajeEjemplo 12 150)).1.reservas = (estadoInicial 10).reservas ∧
    (procesarSolicitudReserva cfgEjemplo (estadoInicial 10)
      (mensajeEjemplo 12 150)).1.solicitudesNegadas =
        (estadoInicial 10).solicitudesNegadas + 1 := by
  have h := claim_C7 cfgEjemplo (estadoInicial 10) (mensajeEjemplo 12 150) 10
    (by decide)
  exact ⟨h.1 12, h.2.1, h.2.2.2.1⟩

/-- C10: the handler (in particular every commit it performs) never writes an
occupancy counter outside the operating range [7, 19]: in the C source the
loop guard `validarHora(h)` stops the window update before any out-of-range
index reaches `ocupacionPorHora[indiceHora(h)]`, so a window extending past
hour 19 is checked and charged only for its in-range hours. -/
theorem claim_C10 (cfg : Config) (st : Estado) (msg : MensajeAgente) (x : Int)
    (hx : validarHora x = false) :
    (procesarSolicitudReserva cfg st msg).1.ocupacionPorHora x =
      st.ocupacionPorHora x := by
  have hx' : ¬ (7 ≤ x ∧ x ≤ 19) := fun hcon => by
    rw [(validarHora_iff x).mpr hcon] at hx
    exact absurd hx (by simp)
  apply procesar_cases cfg st msg
    (fun res => res.1.ocupacionPorHora x = st.ocupacionPorHora x)
  · rfl
  · intro _ _
    rw [registrarReserva_ocupacion,
      if_neg (fun hc => hx' ⟨le_trans hc.2.2.1 hc.1, hc.2.2.2⟩)]
  · intro h' _
    rw [registrarReserva_ocupacion,
      if_neg (fun hc => hx' ⟨le_trans hc.2.2.1 hc.1, hc.2.2.2⟩)]

/-- C10 witness: an approval at hour 19 (window 19–20) leaves the
out-of-range hour 20 untouched. -/
theorem claim_C10_witness :
    (procesarSolicitudReserva cfgEjemplo (estadoInicial 19)
      (mensajeEjemplo 19 50)).1.ocupacionPorHora 20 =
      (estadoInicial 19).ocupacionPorHora 20 :=
  claim_C10 cfgEjemplo (estadoInicial 19) (mensajeEjemplo 19 50) 20 (by decide)

/-- C2: no overbooking — if every in-range hour starts within the capacity
bound, then after the handler processes any sequence of reservation
requests, every in-range hour's occupancy counter is still at most the
configured maximum capacity. -/
theorem claim_C2 (cfg : Config) (st : Estado) (msgs : List MensajeAgente)
    (hinv : ∀ h, validarHora h = true →
      st.ocupacionPorHora h ≤ cfg.aforoMaximo) :
    ∀ h, validarHora h = true →
      (procesarLista cfg st msgs).ocupacionPorHora h ≤ cfg.aforoMaximo := by
  induction msgs generalizing st with
  | nil => exact hinv
  | cons m ms ih =>
    exact ih (procesarSolicitudReserva cfg st m).1
      (procesar_preserva_aforo cfg st m hinv)

/-- C2 witness: after three requests at hour 10 (50, 60 and 60 people) the
counter of hour 10 is within the capacity 100. -/
theorem claim_C2_witness :
    (procesarLista cfgEjemplo (estadoInicial 7)
      [mensajeEjemplo 10 50, mensajeEjemplo 10 60,
       mensajeEjemplo 10 60]).ocupacionPorHora 10 ≤ cfgEjemplo.aforoMaximo :=
  claim_C2 cfgEjemplo (estadoInicial 7)
    [mensajeEjemplo 10 50, mensajeEjemplo 10 60, mensajeEjemplo 10 60]
    (fun h _ => by norm_num [estadoInicial, ocupacionVacia, cfgEjemplo])
    10 (by decide)

/-- C8: monotonicity — over any sequence of operations (request handling and
clock ticks), every in-range hour's occupancy counter never decreases; each
operation leaves it unchanged or increases it. Party sizes are nonnegative,
as the data model requires of every request of the run. -/
theorem claim_C8 (cfg : Config) (st : Estado) (ops : List Operacion)
    (hpos : ∀ op ∈ ops, ∀ msg, op = Operacion.solicitud msg →
      0 ≤ msg.numPersonas) :
    ∀ h, validarHora h = true →
      st.ocupacionPorHora h ≤ (ejecutarLista cfg st ops).ocupacionPorHora h := by
  induction ops generalizing st with
  | nil =>
    intro h _
    exact le_refl _
  | cons op ops ih =>
    intro h hh
    have hstep : st.ocupacionPorHora h ≤
        (ejecutarOperacion cfg st op).ocupacionPorHora h := by
      cases op with
      | tick => exact le_of_eq rfl
      | solicitud msg =>
        exact procesar_ocupacion_monotona cfg st msg
          (hpos _ (List.mem_cons_self _ _) msg rfl) h
    exact le_trans hstep
      (ih (ejecutarOperacion cfg st op)
        (fun o ho m hm => hpos o (List.mem_cons_of_mem _ ho) m hm) h hh)

/-- C8 witness: after a request for 50 people at hour 10 and a clock tick,
the counter of hour 10 has not decreased. -/
theorem claim_C8_witness :
    (estadoInicial 7).ocupacionPorHora 10 ≤
      (ejecutarLista cfgEjemplo (estadoInicial 7)
        [Operacion.solicitud (mensajeEjemplo 10 50),
         Operacion.tick]).ocupacionPorHora 10 := by
  apply claim_C8 cfgEjemplo (estadoInicial 7)
    [Operacion.solicitud (mensajeEjemplo 10 50), Operacion.tick]
    ?_ 10 (by decide)
  intro op hop msg hm
  rcases List.mem_cons.mp hop with rfl | hop'
  · cases hm
    norm_num [mensajeEjemplo]
  · rcases List.mem_cons.mp hop' with rfl | hop''
    · exact absurd hm (by simp)
    · exact absurd hop'' (by simp)

/-- C1 (counterexample): with end hour 19, current hour 19, an empty park and
a request for hour 19 with 50 people (within capacity 100), the handler
APPROVES the reservation at hour 19 — the hour-20 half of the window is
skipped by the `validarHora` loop guard — rather than denying it as the
claim states. -/
theorem claim_C1_counterexample :
    (procesarSolicitudReserva cfgEjemplo (estadoInicial 19)
      (mensajeEjemplo 19 50)).2 = Respuesta.aprobada 19 19 := by decide

/-- C1 (amended): at current hour 19 = end hour, a request for hour 19 with a
party within capacity is APPROVED at hour 19 whenever hour 19 itself still
has room — only the in-range half of the window 19–20 is checked and
charged; otherwise it is DENIED, the alternative search range being empty at
that boundary. -/
theorem claim_C1 (cfg : Config) (st : Estado) (msg : MensajeAgente)
    (hf : cfg.horaFinal = 19) (ha : st.horaActual = 19)
    (hs : msg.horaSolicitada = 19) (hn : msg.numPersonas ≤ cfg.aforoMaximo) :
    (procesarSolicitudReserva cfg st msg).2 =
      if st.ocupacionPorHora 19 + msg.numPersonas ≤ cfg.aforoMaximo
      then Respuesta.aprobada 19 19
      else Respuesta.negada 19 := by
  have h1 : validarHora msg.horaSolicitada = true := by
    rw [hs]; decide
  have h2 : ¬ msg.numPersonas > cfg.aforoMaximo := by omega
  have h3 : ¬ msg.horaSolicitada < st.horaActual := by omega
  have h4 : ¬ msg.horaSolicitada > cfg.horaFinal := by omega
  by_cases hroom : st.ocupacionPorHora 19 + msg.numPersonas ≤ cfg.aforoMaximo
  · rw [if_pos hroom]
    have h5 : verificarDisponibilidad cfg st.ocupacionPorHora
        msg.horaSolicitada msg.numPersonas = true := by
      rw [verificarDisponibilidad_eq_true]
      intro x hx1 hx2 _ hx4
      have hx19 : x = 19 := by omega
      rw [hx19]
      exact hroom
    rw [procesar_eq_disponible cfg st msg h1 h2 h3 h4 h5]
    simp [hs, ha]
  · rw [if_neg hroom]
    have h5 : verificarDisponibilidad cfg st.ocupacionPorHora
        msg.horaSolicitada msg.numPersonas = false := by
      rcases Bool.eq_false_or_eq_true (verificarDisponibilidad cfg
        st.ocupacionPorHora msg.horaSolicitada msg.numPersonas) with h | h
      · exfalso
        exact hroom ((verificarDisponibilidad_eq_true _ _ _ _).mp h 19
          (by omega) (by rw [hs]; norm_num [DURACION_RESERVA]) (by omega)
          (by norm_num))
      · exact h
    have hb : buscarHoraAlternativa cfg st.ocupacionPorHora st.horaActual
        msg.numPersonas = none := by
      rw [buscarHoraAlternativa_eq_none]
      intro y hy1 hy2
      exact absurd hy1 (by
        rw [hf] at hy2
        norm_num [DURACION_RESERVA] at hy2
        rw [ha]
        omega)
    rw [procesar_eq_no_disponible_none cfg st msg h1 h2 h3 h4 h5 hb]
    simp [ha]

/-- C1 witness: the amended statement at the concrete boundary scenario. -/
theorem claim_C1_witness :
    (procesarSolicitudReserva cfgEjemplo (estadoInicial 19)
      (mensajeEjemplo 19 50)).2 =
      if (estadoInicial 19).ocupacionPorHora 19 +
          (mensajeEjemplo 19 50).numPersonas ≤ cfgEjemplo.aforoMaximo
      then Respuesta.aprobada 19 19
      else Respuesta.negada 19 :=
  claim_C1 cfgEjemplo (estadoInicial 19) (mensajeEjemplo 19 50) rfl rfl rfl
    (by decide)

/-- C3: a request whose hour is in range, not below the current hour, not
above the end hour, whose party fits the capacity, and whose whole two-hour
window (restricted to in-range hours, the only ones the table stores) has
room, is APPROVED at the requested hour, and the counter of each in-range
covered hour grows by exactly the party size while every other in-range
counter is unchanged. -/
theorem claim_C3 (cfg : Config) (st : Estado) (msg : MensajeAgente)
    (h1 : validarHora msg.horaSolicitada = true)
    (h2 : st.horaActual ≤ msg.horaSolicitada)
    (h3 : msg.horaSolicitada ≤ cfg.horaFinal)
    (h4 : msg.numPersonas ≤ cfg.aforoMaximo)
    (h5 : ∀ x, msg.horaSolicitada ≤ x →
      x < msg.horaSolicitada + DURACION_RESERVA → validarHora x = true →
      st.ocupacionPorHora x + msg.numPersonas ≤ cfg.aforoMaximo) :
    (procesarSolicitudReserva cfg st msg).2 =
      Respuesta.aprobada msg.horaSolicitada st.horaActual ∧
    ∀ x, validarHora x = true →
      (procesarSolicitudReserva cfg st msg).1.ocupacionPorHora x =
        st.ocupacionPorHora x +
          (if msg.horaSolicitada ≤ x ∧
              x < msg.horaSolicitada + DURACION_RESERVA
           then msg.numPersonas else 0) := by
  have hval := (validarHora_iff _).mp h1
  have h2' : ¬ msg.horaSolicitada < st.horaActual := by omega
  have h3' : ¬ msg.horaSolicitada > cfg.horaFinal := by omega
  have h4' : ¬ msg.numPersonas > cfg.aforoMaximo := by omega
  have h5' : verificarDisponibilidad cfg st.ocupacionPorHora
      msg.horaSolicitada msg.numPersonas = true := by
    rw [verificarDisponibilidad_eq_true]
    intro x hx1 hx2 _ hx4
    exact h5 x hx1 hx2 ((validarHora_iff x).mpr ⟨by omega, hx4⟩)
  rw [procesar_eq_disponible cfg st msg h1 h4' h2' h3' h5']
  refine ⟨rfl, ?_⟩
  intro x hx
  have hxv := (validarHora_iff x).mp hx
  rw [registrarReserva_ocupacion]
  dsimp only
  by_cases hin : msg.horaSolicitada ≤ x ∧
      x < msg.horaSolicitada + DURACION_RESERVA
  · rw [if_pos ⟨hin.1, hin.2, hval.1, hxv.2⟩, if_pos hin]
  · rw [if_neg (fun hc => hin ⟨hc.1, hc.2.1⟩), if_neg hin, add_zero]

/-- C3 witness: empty park, capacity 100, request for hour 10 with 50 people
→ APPROVED at 10 with counters 50 at hours 10 and 11. -/
theorem claim_C3_witness :
    (procesarSolicitudReserva cfgEjemplo (estadoInicial 7)
      (mensajeEjemplo 10 50)).2 = Respuesta.aprobada 10 7 ∧
    (procesarSolicitudReserva cfgEjemplo (estadoInicial 7)
      (mensajeEjemplo 10 50)).1.ocupacionPorHora 10 = 50 ∧
    (procesarSolicitudReserva cfgEjemplo (estadoInicial 7)
      (mensajeEjemplo 10 50)).1.ocupacionPorHora 11 = 50 := by
  have h := claim_C3 cfgEjemplo (estadoInicial 7) (mensajeEjemplo 10 50)
    (by decide) (by decide) (by decide) (by decide)
    (fun x _ _ _ => by
      norm_num [estadoInicial, ocupacionVacia, cfgEjemplo, mensajeEjemplo])
  refine ⟨h.1, ?_, ?_⟩
  · have h10 := h.2 10 (by decide)
    simpa [estadoInicial, ocupacionVacia, mensajeEjemplo, DURACION_RESERVA]
      using h10
  · have h11 := h.2 11 (by decide)
    simpa [estadoInicial, ocupacionVacia, mensajeEjemplo, DURACION_RESERVA]
      using h11

/-- C4: a late request (in-range hour, party within capacity, hour strictly
below the current hour) triggers the alternative search from the current
hour: if it finds an hour the reservation is committed there (record
appended and counters charged) and the response is RESCHEDULED at that hour;
otherwise the response is DENIED. -/
theorem claim_C4 (cfg : Config) (st : Estado) (msg : MensajeAgente)
    (h1 : validarHora msg.horaSolicitada = true)
    (h4 : msg.numPersonas ≤ cfg.aforoMaximo)
    (hlate : msg.horaSolicitada < st.horaActual) :
    (∀ h', buscarHoraAlternativa cfg st.ocupacionPorHora st.horaActual
        msg.numPersonas = some h' →
      (procesarSolicitudReserva cfg st msg).2 =
        Respuesta.reprogramada h' st.horaActual ∧
      (procesarSolicitudReserva cfg st msg).1.reservas = st.reservas ++
        [⟨msg.nombreFamilia, msg.nombreAgente, h',
          h' + DURACION_RESERVA - 1, msg.numPersonas, false⟩] ∧
      ∀ x, validarHora x = true →
        (procesarSolicitudReserva cfg st msg).1.ocupacionPorHora x =
          st.ocupacionPorHora x +
            (if h' ≤ x ∧ x < h' + DURACION_RESERVA
             then msg.numPersonas else 0)) ∧
    (buscarHoraAlternativa cfg st.ocupacionPorHora st.horaActual
        msg.numPersonas = none →
      (procesarSolicitudReserva cfg st msg).2 =
        Respuesta.negada st.horaActual) := by
  have h2 : ¬ msg.numPersonas > cfg.aforoMaximo := by omega
  constructor
  · intro h' hb
    have hcand : CandidatoValido cfg st.ocupacionPorHora msg.numPersonas h' :=
      ((buscarHoraAlternativa_eq_some _ _ _ _ _).mp hb).2.2.1
    have h7 : 7 ≤ h' ∧ h' ≤ 19 := (validarHora_iff h').mp
      (hcand h' le_rfl (by norm_num [DURACION_RESERVA])).1
    rw [procesar_eq_tardia_some cfg st msg h' h1 h2 hlate hb]
    refine ⟨rfl, rfl, ?_⟩
    intro x hx
    have hxv := (validarHora_iff x).mp hx
    rw [registrarReserva_ocupacion]
    dsimp only
    by_cases hin : h' ≤ x ∧ x < h' + DURACION_RESERVA
    · rw [if_pos ⟨hin.1, hin.2, h7.1, hxv.2⟩, if_pos hin]
    · rw [if_neg (fun hc => hin ⟨hc.1, hc.2.1⟩), if_neg hin, add_zero]
  · intro hb
    rw [procesar_eq_tardia_none cfg st msg h1 h2 hlate hb]

/-- C4 witness: at current hour 12 a late request for hour 9 on an empty
park is RESCHEDULED to hour 12. -/
theorem claim_C4_witness :
    (procesarSolicitudReserva cfgEjemplo (estadoInicial 12)
      (mensajeEjemplo 9 50)).2 = Respuesta.reprogramada 12 12 :=
  ((claim_C4 cfgEjemplo (estadoInicial 12) (mensajeEjemplo 9 50)
    (by decide) (by decide) (by decide)).1 12 (by decide)).1

/-- C5: earliest-slot property — when `buscarHoraAlternativa` returns an
hour it is a valid candidate lying between the current hour and
`horaFinal - DURACION_RESERVA + 1`, no valid candidate exists strictly
between the current hour and it, and the search returns nothing exactly when
no hour of that range is a valid candidate. -/
theorem claim_C5 (cfg : Config) (ocup : Int → Int)
    (horaActual numPersonas : Int) :
    (∀ h', buscarHoraAlternativa cfg ocup horaActual numPersonas = some h' →
      CandidatoValido cfg ocup numPersonas h' ∧
      horaActual ≤ h' ∧ h' ≤ cfg.horaFinal - DURACION_RESERVA + 1 ∧
      ∀ y, horaActual < y → y < h' →
        ¬ CandidatoValido cfg ocup numPersonas y) ∧
    (buscarHoraAlternativa cfg ocup horaActual numPersonas = none ↔
      ∀ y, horaActual ≤ y → y ≤ cfg.horaFinal - DURACION_RESERVA + 1 →
        ¬ CandidatoValido cfg ocup numPersonas y) := by
  constructor
  · intro h' hb
    obtain ⟨k1, k2, k3, k4⟩ := (buscarHoraAlternativa_eq_some _ _ _ _ _).mp hb
    exact ⟨k3, k1, k2, fun y hy1 hy2 => k4 y (le_of_lt hy1) hy2⟩
  · exact buscarHoraAlternativa_eq_none _ _ _ _

/-- C5 witness: with an empty park the search from hour 12 accepts hour 12
itself, and 12 is within the scan bound. -/
theorem claim_C5_witness :
    CandidatoValido cfgEjemplo ocupacionVacia 50 12 ∧
    (12 : Int) ≤ 12 ∧
    (12 : Int) ≤ cfgEjemplo.horaFinal - DURACION_RESERVA + 1 := by
  have h := (claim_C5 cfgEjemplo ocupacionVacia 12 50).1 12 (by decide)
  exact ⟨h.1, h.2.1, h.2.2.1⟩

/-- C9: one clock tick increments the current hour by one, leaves the
occupancy table and the statistics counters untouched, and transforms the
reservation store record-by-record: a record whose start hour equals the new
hour ends active, a record whose end hour is strictly before the new hour
ends inactive, any other record keeps its flag, and no field other than the
flag changes. -/
theorem claim_C9 (st : Estado)
    (hwf : ∀ r ∈ st.reservas, r.horaInicio ≤ r.horaFin) :
    (avanzarHora st).horaActual = st.horaActual + 1 ∧
    (∀ x, (avanzarHora st).ocupacionPorHora x = st.ocupacionPorHora x) ∧
    (avanzarHora st).solicitudesNegadas = st.solicitudesNegadas ∧
    (avanzarHora st).solicitudesAceptadas = st.solicitudesAceptadas ∧
    (avanzarHora st).solicitudesReprogramadas = st.solicitudesReprogramadas ∧
    List.Forall₂ (fun r r' =>
      r'.nombreFamilia = r.nombreFamilia ∧
      r'.nombreAgente = r.nombreAgente ∧
      r'.horaInicio = r.horaInicio ∧
      r'.horaFin = r.horaFin ∧
      r'.numPersonas = r.numPersonas ∧
      (r.horaInicio = st.horaActual + 1 → r'.activa = true) ∧
      (r.horaFin < st.horaActual + 1 → r'.activa = false) ∧
      (r.horaInicio ≠ st.horaActual + 1 → ¬ r.horaFin < st.horaActual + 1 →
        r'.activa = r.activa))
      st.reservas (avanzarHora st).reservas := by
  refine ⟨rfl, fun _ => rfl, rfl, rfl, rfl, ?_⟩
  show List.Forall₂ _ st.reservas
    ((st.reservas.map (activarRegistro (st.horaActual + 1))).map
      (desactivarRegistro (st.horaActual + 1)))
  rw [List.map_map, List.forall₂_map_right_iff, List.forall₂_same]
  intro r hr
  have hwfr := hwf r hr
  simp only [Function.comp, activarRegistro_spec, desactivarRegistro_spec]
  refine ⟨by trivial, by trivial, by trivial, by trivial, by trivial, ?_, ?_, ?_⟩
  · intro hcon
    have hnofin : ¬ r.horaFin < st.horaActual + 1 := by omega
    simp [hcon, hnofin]
  · intro hcon
    simp [hcon]
  · intro hni hnf
    simp [hni, hnf]

/-- C9 witness: ticking from hour 9 to 10 activates the reservation starting
at 10, deactivates the one that ended at 9, and leaves the counters and the
statistics untouched. -/
theorem claim_C9_witness :
    (avanzarHora estadoReloj).horaActual = 10 ∧
    (avanzarHora estadoReloj).ocupacionPorHora 10 = 0 ∧
    (avanzarHora estadoReloj).reservas.map (fun r => r.activa) =
      [true, false] := by
  have h := claim_C9 estadoReloj (by decide)
  refine ⟨by rw [h.1]; decide, by rw [h.2.1 10]; decide, by decide⟩

end ParqueBerlin
